import Mathlib

/-!
Verification development for the ExcelMind multi-table store and join engine.

The repository ships two Python files under `src/excel_agent/`: `api.py`
(the HTTP layer calling into a table loader) and `config.py` (configuration
loading with environment-variable expansion).  The table store / join engine
module itself (`excel_loader.py`) is not part of the provided sources, so its
data model and operations are modelled from the specification; definitions
taken directly from `api.py` / `config.py` say so in their doc comments.

Machine integers are modelled as `Int`/`Nat`; Python floats are modelled as
rationals (only their equality behaviour matters for join keys).
-/

namespace ExcelMind

/-- Modelled from the spec: cell values are a closed tagged variant
{null, bool, int, float, string, date/time} (spec section 3, section 9).
Floats are modelled as rationals; date/time as an abstract timestamp. -/
inductive Value where
  | vnull : Value
  | vbool : Bool → Value
  | vint : Int → Value
  | vfloat : Rat → Value
  | vstr : String → Value
  | vdate : Nat → Value
deriving Repr, DecidableEq

/-- Modelled from the spec: join-key value equality.  Null is never equal to
anything, including another null; otherwise values compare by semantic type:
numeric equality across int/float, exact string equality, exact date
equality (spec section 4.2). -/
def valueEq : Value → Value → Bool
  | .vnull, _ => false
  | _, .vnull => false
  | .vbool a, .vbool b => a == b
  | .vint a, .vint b => a == b
  | .vint a, .vfloat q => (a : Rat) == q
  | .vfloat q, .vint a => q == (a : Rat)
  | .vfloat a, .vfloat b => a == b
  | .vstr a, .vstr b => a == b
  | .vdate a, .vdate b => a == b
  | _, _ => false

/-- Modelled from the spec: a row is a record mapping column names to
values (spec section 3). -/
abbrev Row : Type := List (String × Value)

/-- Look up a column's value in a row; a missing cell reads as null
(spec section 3: missing cells become null). -/
def rowValue (r : Row) (c : String) : Value :=
  match List.lookup c r with
  | some v => v
  | none => Value.vnull

/-- Modelled from the spec: a loaded dataset with identity, display name,
provenance, ordered column names and rows (spec section 3).  Column types
are derived data (structure extraction) and not stored here. -/
structure Table where
  id : String
  name : String
  source_label : String
  columns : List String
  rows : List Row
deriving Repr, DecidableEq

/-- Modelled from the spec: two rows match when, for every paired key index,
the table1 key value equals the table2 key value under `valueEq`
(spec section 4.2). -/
def rowsMatch (keys1 keys2 : List String) (r1 r2 : Row) : Bool :=
  (keys1.zip keys2).all (fun p => valueEq (rowValue r1 p.1) (rowValue r2 p.2))

/-- Modelled from the spec: a table2-origin column name that collides with a
table1 column is suffixed with "_2" (spec section 4.2, section 9). -/
def renameCol (cols1 : List String) (c : String) : String :=
  if c ∈ cols1 then c ++ "_2" else c

/-- Modelled from the spec: the join result's columns are all columns of
table1 in order, then all columns of table2 in order, collisions renamed. -/
def joinedColumns (cols1 cols2 : List String) : List String :=
  cols1 ++ cols2.map (renameCol cols1)

/-- Build the output row for a matched pair: table1 cells under their own
names, then table2 cells under their (possibly renamed) names. -/
def combineMatched (cols1 cols2 : List String) (r1 r2 : Row) : Row :=
  cols1.map (fun c => (c, rowValue r1 c))
    ++ cols2.map (fun c => (renameCol cols1 c, rowValue r2 c))

/-- Build the output row for an unmatched left row: the table2 side is
all-null (spec section 4.2). -/
def padRight (cols1 cols2 : List String) (r1 : Row) : Row :=
  cols1.map (fun c => (c, rowValue r1 c))
    ++ cols2.map (fun c => (renameCol cols1 c, Value.vnull))

/-- Build the output row for an unmatched right row: the table1 side is
all-null (spec section 4.2). -/
def padLeft (cols1 cols2 : List String) (r2 : Row) : Row :=
  cols1.map (fun c => (c, Value.vnull))
    ++ cols2.map (fun c => (renameCol cols1 c, rowValue r2 c))

/-- Modelled from the spec: all matched pairs, in table1-outer-loop /
table2-inner-loop visit order (spec section 4.2). -/
def matchedRows (keys1 keys2 : List String) (t1 t2 : Table) : List Row :=
  t1.rows.flatMap (fun r1 =>
    (t2.rows.filter (fun r2 => rowsMatch keys1 keys2 r1 r2)).map
      (fun r2 => combineMatched t1.columns t2.columns r1 r2))

/-- Modelled from the spec: left rows with no match on the right, padded
with an all-null right side, in table1 order. -/
def unmatchedLeftRows (keys1 keys2 : List String) (t1 t2 : Table) : List Row :=
  (t1.rows.filter (fun r1 =>
      !(t2.rows.any (fun r2 => rowsMatch keys1 keys2 r1 r2)))).map
    (fun r1 => padRight t1.columns t2.columns r1)

/-- Modelled from the spec: right rows with no match on the left, padded
with an all-null left side, in table2 order. -/
def unmatchedRightRows (keys1 keys2 : List String) (t1 t2 : Table) : List Row :=
  (t2.rows.filter (fun r2 =>
      !(t1.rows.any (fun r1 => rowsMatch keys1 keys2 r1 r2)))).map
    (fun r2 => padLeft t1.columns t2.columns r2)

/-- The four recognized join types (spec section 4.2). -/
inductive JoinType where
  | inner : JoinType
  | left : JoinType
  | right : JoinType
  | outer : JoinType
deriving Repr, DecidableEq

/-- Parse a join-type string; anything outside the four recognized values
is unrecognized (spec section 4.2). -/
def parseJoinType : String → Option JoinType
  | "inner" => some .inner
  | "left" => some .left
  | "right" => some .right
  | "outer" => some .outer
  | _ => none

/-- Modelled from the spec: the join result's rows — matched pairs first,
then unmatched left rows for left/outer, then unmatched right rows for
right/outer (spec section 4.2). -/
def joinRows (jt : JoinType) (keys1 keys2 : List String) (t1 t2 : Table) :
    List Row :=
  matchedRows keys1 keys2 t1 t2
    ++ (if jt = .left ∨ jt = .outer then unmatchedLeftRows keys1 keys2 t1 t2
        else [])
    ++ (if jt = .right ∨ jt = .outer then unmatchedRightRows keys1 keys2 t1 t2
        else [])

/-- Error taxonomy of the store and join engine (spec section 7). -/
inductive StoreError where
  | validationError : StoreError
  | notFoundError : StoreError
deriving Repr, DecidableEq

/-- Modelled from the spec: join-engine validation — `ValidationError` when
`keys1`/`keys2` differ in length, are empty, reference a column absent from
the respective table, or the join type is unrecognized (spec section 4.2). -/
def joinValidate (t1 t2 : Table) (keys1 keys2 : List String) (jt : String) :
    Except StoreError JoinType :=
  if keys1.length ≠ keys2.length then .error .validationError
  else if keys1.isEmpty then .error .validationError
  else if !(keys1.all (fun k => decide (k ∈ t1.columns))) then
    .error .validationError
  else if !(keys2.all (fun k => decide (k ∈ t2.columns))) then
    .error .validationError
  else
    match parseJoinType jt with
    | some j => .ok j
    | none => .error .validationError

/-- Modelled from the spec: the join engine — validate, then produce the
output columns and rows (spec section 4.2). -/
def joinEngine (t1 t2 : Table) (keys1 keys2 : List String) (jt : String) :
    Except StoreError (List String × List Row) :=
  match joinValidate t1 t2 keys1 keys2 jt with
  | .error e => .error e
  | .ok j => .ok (joinedColumns t1.columns t2.columns, joinRows j keys1 keys2 t1 t2)

/-- Modelled from the spec: the multi-table store — a mapping from table id
to table (kept in insertion order for listing), the optional active table
id, and a counter generating fresh ids (ids are opaque strings whose only
constraint is lifetime uniqueness, spec sections 3, 4.1, 6). -/
structure Store where
  tables : List (String × Table)
  active_id : Option String
  next_id : Nat
deriving Repr, DecidableEq

/-- The empty store. -/
def Store.empty : Store := ⟨[], none, 0⟩

/-- The fresh id the store would assign to its next table. -/
def Store.freshId (s : Store) : String :=
  "t" ++ toString s.next_id

/-- The list of ids currently present in the store. -/
def Store.ids (s : Store) : List String :=
  s.tables.map Prod.fst

/-- Look up a table by id. -/
def Store.get_table (s : Store) (id : String) : Option Table :=
  List.lookup id s.tables

/-- Modelled from the spec: `add_table` ingests a dataset (here: its already
parsed columns, rows and provenance), assigns a fresh unique id, stores it,
and marks it active only when no active table is currently set
(spec section 4.1). -/
def Store.add_table (s : Store) (name source_label : String)
    (columns : List String) (rows : List Row) : Store × String :=
  let id := s.freshId
  let t : Table := ⟨id, name, source_label, columns, rows⟩
  (⟨s.tables ++ [(id, t)],
    match s.active_id with
    | none => some id
    | some a => some a,
    s.next_id + 1⟩, id)

/-- Modelled from the spec: `remove_table` removes the table, returning
false when the id is unknown; removing the active table unsets
`active_id` (spec section 4.1). -/
def Store.remove_table (s : Store) (id : String) : Store × Bool :=
  if id ∈ s.ids then
    (⟨s.tables.filter (fun p => p.1 ≠ id),
      if s.active_id = some id then none else s.active_id,
      s.next_id⟩, true)
  else (s, false)

/-- Modelled from the spec: `set_active_table` returns false on an unknown
id without mutating state, otherwise updates `active_id`
(spec section 4.1). -/
def Store.set_active_table (s : Store) (id : String) : Store × Bool :=
  if id ∈ s.ids then ({ s with active_id := some id }, true)
  else (s, false)

/-- Modelled from the spec: `join_tables` looks the two tables up
(`NotFoundError` when absent), runs the join engine, and registers the
result as a new table without changing `active_id` (spec section 4.1).
On any error the store is returned unchanged (spec section 7). -/
def Store.join_tables (s : Store) (id1 id2 : String)
    (keys1 keys2 : List String) (jt : String) (new_name : String) :
    Store × Except StoreError String :=
  match s.get_table id1, s.get_table id2 with
  | some t1, some t2 =>
    match joinEngine t1 t2 keys1 keys2 jt with
    | .error e => (s, .error e)
    | .ok (cols, rows) =>
      let id := s.freshId
      let t : Table := ⟨id, new_name, "join:" ++ jt, cols, rows⟩
      (⟨s.tables ++ [(id, t)], s.active_id, s.next_id + 1⟩, .ok id)
  | _, _ => (s, .error .notFoundError)

/-- Modelled from the spec: `reset` clears all tables and the active
pointer (spec section 4.1). -/
def Store.reset (_ : Store) : Store := Store.empty

/-- One mutating store operation, as issued by a caller. -/
inductive StoreOp where
  | add : String → String → List String → List Row → StoreOp
  | remove : String → StoreOp
  | setActive : String → StoreOp
  | join : String → String → List String → List String → String → String → StoreOp
  | reset : StoreOp
deriving Repr

/-- Apply one operation to the store, discarding the caller-visible
result. -/
def Store.apply (s : Store) : StoreOp → Store
  | .add name src cols rows => (s.add_table name src cols rows).1
  | .remove id => (s.remove_table id).1
  | .setActive id => (s.set_active_table id).1
  | .join id1 id2 k1 k2 jt nm => (s.join_tables id1 id2 k1 k2 jt nm).1
  | .reset => s.reset

/-- Run a sequence of operations from a starting store. -/
def Store.run (s : Store) (ops : List StoreOp) : Store :=
  ops.foldl Store.apply s

/-- The active-pointer validity invariant: `active_id` is unset or refers
to a table present in `tables` (spec sections 3, 8). -/
def Store.activeValid (s : Store) : Bool :=
  match s.active_id with
  | none => true
  | some id => decide (id ∈ s.ids)

/-- Modelled from the spec: `preview` takes the first `max_rows` rows in
table order; on an empty table it returns an empty sample
(spec section 4.3). -/
def get_preview (t : Table) (max_rows : Nat) : List Row :=
  t.rows.take max_rows

/-- Embedded from `config.py` (`class ExcelConfig`): the Excel-related
configuration with its field defaults. -/
structure ExcelConfig where
  max_preview_rows : Nat := 5
  default_result_limit : Nat := 20
  max_result_limit : Nat := 1000
deriving Repr, DecidableEq

/-- The default Excel configuration, as produced by `ExcelConfig()`. -/
def excelConfigDefault : ExcelConfig := {}

/-- Split a character list on a separator character (the groups between
separators, in order). -/
def splitOnChar (sep : Char) : List Char → List (List Char)
  | [] => [[]]
  | c :: rest =>
    if c = sep then [] :: splitOnChar sep rest
    else
      match splitOnChar sep rest with
      | [] => [[c]]
      | g :: gs => (c :: g) :: gs

/-- Embedded from `api.py` via `pathlib`: the final component of a path
string — split on the separator, drop empty and "." components, take the
last one (empty when none remains). -/
def pyPathName (p : String) : String :=
  match ((splitOnChar '/' p.data).filter
      (fun c => c ≠ [] && c ≠ ['.'])).getLast? with
  | some c => String.mk c
  | none => ""

/-- Embedded from `api.py` via `pathlib`: the extension of a file name —
the part from the rightmost dot onward, provided that dot is neither the
first nor the last character; otherwise empty. -/
def pySuffix (name : String) : String :=
  let cs := name.data
  match ((List.range cs.length).filter (fun i => cs.getD i ' ' = '.')).getLast? with
  | some i => if 0 < i ∧ i + 1 < cs.length then String.mk (cs.drop i) else ""
  | none => ""

/-- Embedded from `api.py` (`upload_excel`): the accepted Excel filename
extensions. -/
def allowedSuffixes : List String := [".xlsx", ".xls", ".xlsm"]

/-- ASCII lower-casing of one character, as `str.lower()` acts on the
ASCII range relevant to filename extensions. -/
def lowerChar (c : Char) : Char :=
  if 'A' ≤ c ∧ c ≤ 'Z' then Char.ofNat (c.toNat + 32) else c

/-- Lower-case a string character by character. -/
def lowerStr (s : String) : String :=
  String.mk (s.data.map lowerChar)

/-- Embedded from `api.py` (`upload_excel`): reject with HTTP 400 when the
request carries no filename (`if not file.filename`, which also rejects an
empty string) or when the lower-cased extension is not an Excel one; only
then save the payload and hand it to the store's `add_table`.  The result
is the store after the request together with the HTTP status code. -/
def upload_excel : Store → Option String → List String → List Row →
    Store × Nat
  | s, none, _, _ => (s, 400)
  | s, some f, columns, rows =>
    if f = "" then (s, 400)
    else if lowerStr (pySuffix (pyPathName f)) ∉ allowedSuffixes then (s, 400)
    else ((s.add_table f f columns rows).1, 200)

/-- Embedded from `config.py`: the character class of the regex `\w`
(modelled over its ASCII range: letters, digits, underscore). -/
def isWordChar (c : Char) : Bool :=
  c.isAlphanum || c = '_'

/-- Recognize a `${VAR}` placeholder at the head of the character list:
dollar, brace, a nonempty run of word characters, closing brace.  Returns
the variable name and the remaining characters. -/
def parsePlaceholder (l : List Char) : Option (List Char × List Char) :=
  match l with
  | a :: b :: rest =>
    if a = '$' ∧ b = '{' then
      let run := rest.takeWhile isWordChar
      match rest.dropWhile isWordChar with
      | c :: tail => if c = '}' ∧ !run.isEmpty then some (run, tail) else none
      | [] => none
    else none
  | _ => none

theorem length_dropWhile_le (p : Char → Bool) (l : List Char) :
    (l.dropWhile p).length ≤ l.length := by
  induction l with
  | nil => simp
  | cons a l ih =>
    by_cases h : p a
    · rw [List.dropWhile_cons_of_pos h]
      exact Nat.le_succ_of_le ih
    · rw [List.dropWhile_cons_of_neg h]

theorem parsePlaceholder_length :
    ∀ l run tail, parsePlaceholder l = some (run, tail) →
      tail.length < l.length := by
  intro l run tail h
  match l with
  | [] => simp [parsePlaceholder] at h
  | [a] => simp [parsePlaceholder] at h
  | a :: b :: rest =>
    simp only [parsePlaceholder] at h
    split at h
    · split at h
      next heq =>
        split at h
        · have hle := length_dropWhile_le isWordChar rest
          rw [heq] at hle
          simp only [Option.some.injEq, Prod.mk.injEq] at h
          obtain ⟨-, h2⟩ := h
          subst h2
          simp only [List.length_cons] at hle ⊢
          omega
        · exact absurd h (by simp)
      next => exact absurd h (by simp)
    · exact absurd h (by simp)

/-- Embedded from `config.py` (`_expand_env_vars`): scan the characters
left to right; at each position a `${VAR}` placeholder is replaced by the
environment's value for `VAR` (empty string when unset) and scanning
resumes after the placeholder, any other character is copied.  Replacement
text is not rescanned, matching `re.sub`. -/
def expandEnvChars (env : String → Option String) (l : List Char) :
    List Char :=
  match l with
  | [] => []
  | c :: rest =>
    match h : parsePlaceholder (c :: rest) with
    | some (run, tail) =>
      ((env (String.mk run)).getD "").data ++ expandEnvChars env tail
    | none => c :: expandEnvChars env rest
termination_by l.length
decreasing_by
  · exact parsePlaceholder_length _ _ _ h
  · simp

/-- Embedded from `config.py`: `_expand_env_vars` over strings. -/
def expand_env_vars (env : String → Option String) (s : String) : String :=
  String.mk (expandEnvChars env s.data)

/-- A YAML configuration value as loaded by `yaml.safe_load`. -/
inductive YamlValue where
  | ystr : String → YamlValue
  | yint : Int → YamlValue
  | ybool : Bool → YamlValue
  | ynull : YamlValue
  | ylist : List YamlValue → YamlValue
  | ydict : List (String × YamlValue) → YamlValue
deriving Repr

/-- Embedded from `config.py` (`_process_config_dict`): expand environment
variables in string values, recurse into nested dicts, and leave every
other value — including lists — untouched. -/
def process_config_dict (env : String → Option String) :
    List (String × YamlValue) → List (String × YamlValue)
  | [] => []
  | (k, .ystr s) :: rest =>
    (k, .ystr (expand_env_vars env s)) :: process_config_dict env rest
  | (k, .ydict d) :: rest =>
    (k, .ydict (process_config_dict env d)) :: process_config_dict env rest
  | (k, v) :: rest => (k, v) :: process_config_dict env rest

/-! ### Shared sample data for concrete evaluations -/

/-- The spec's worked join example, left table (spec section 8). -/
def sampleT1 : Table := ⟨"t0", "T1", "f1", ["id", "name"],
  [[("id", Value.vint 1), ("name", Value.vstr "a")],
   [("id", Value.vint 2), ("name", Value.vstr "b")]]⟩

/-- The spec's worked join example, right table (spec section 8). -/
def sampleT2 : Table := ⟨"t1", "T2", "f2", ["id", "val"],
  [[("id", Value.vint 2), ("val", Value.vstr "x")],
   [("id", Value.vint 3), ("val", Value.vstr "y")]]⟩

/-- A store holding the two sample tables, the first one active. -/
def sampleStore : Store :=
  ⟨[("t0", sampleT1), ("t1", sampleT2)], some "t0", 2⟩

/-! ### Claims -/

/-- C1: on table1 = [{id:1,name:"a"},{id:2,name:"b"}] and
table2 = [{id:2,val:"x"},{id:3,val:"y"}] joined on key "id", an inner join
yields exactly one row combining name:"b" and val:"x"; a left join yields
two rows, the id=1 row padded with a null val; an outer join yields three
rows including an id=3 row padded with a null name. -/
theorem C1_join_tables_example :
    (joinEngine sampleT1 sampleT2 ["id"] ["id"] "inner"
      = Except.ok (["id", "name", "id_2", "val"],
          [[("id", Value.vint 2), ("name", Value.vstr "b"),
            ("id_2", Value.vint 2), ("val", Value.vstr "x")]]))
  ∧ (joinEngine sampleT1 sampleT2 ["id"] ["id"] "left"
      = Except.ok (["id", "name", "id_2", "val"],
          [[("id", Value.vint 2), ("name", Value.vstr "b"),
            ("id_2", Value.vint 2), ("val", Value.vstr "x")],
           [("id", Value.vint 1), ("name", Value.vstr "a"),
            ("id_2", Value.vnull), ("val", Value.vnull)]]))
  ∧ (joinEngine sampleT1 sampleT2 ["id"] ["id"] "outer"
      = Except.ok (["id", "name", "id_2", "val"],
          [[("id", Value.vint 2), ("name", Value.vstr "b"),
            ("id_2", Value.vint 2), ("val", Value.vstr "x")],
           [("id", Value.vint 1), ("name", Value.vstr "a"),
            ("id_2", Value.vnull), ("val", Value.vnull)],
           [("id", Value.vnull), ("name", Value.vnull),
            ("id_2", Value.vint 3), ("val", Value.vstr "y")]])) := by
  refine ⟨?_, ?_, ?_⟩ <;> rfl

/-- C4: in every join, two rows match exactly when each paired key position
compares equal under the value equality; that equality never relates null
to anything (null included), relates int and float numerically, and
relates strings and dates by exact equality. -/
theorem C4_match_semantics (keys1 keys2 : List String) (r1 r2 : Row)
    (h : keys1.length = keys2.length) :
    (rowsMatch keys1 keys2 r1 r2 = true ↔
      ∀ k : Fin keys1.length,
        valueEq (rowValue r1 (keys1.get k))
          (rowValue r2 (keys2.get (Fin.cast h k))) = true)
  ∧ (∀ v, valueEq Value.vnull v = false)
  ∧ (∀ v, valueEq v Value.vnull = false)
  ∧ (∀ n q, valueEq (Value.vint n) (Value.vfloat q) = true ↔ (n : Rat) = q)
  ∧ (∀ a b, valueEq (Value.vstr a) (Value.vstr b) = true ↔ a = b)
  ∧ (∀ a b, valueEq (Value.vdate a) (Value.vdate b) = true ↔ a = b) := by
  refine ⟨?_, ?_, ?_, ?_, ?_, ?_⟩
  · rw [rowsMatch, List.all_eq_true]
    constructor
    · intro hall k
      have hk : (k : Nat) < (keys1.zip keys2).length := by
        rw [List.length_zip]
        have := k.isLt
        omega
      have hmem : (keys1.zip keys2)[(k : Nat)] ∈ keys1.zip keys2 :=
        List.getElem_mem hk
      have hz : (keys1.zip keys2)[(k : Nat)]
          = (keys1.get k, keys2.get (Fin.cast h k)) := by
        rw [List.getElem_zip]
        rfl
      have := hall _ hmem
      rw [hz] at this
      exact this
    · intro hpt p hp
      obtain ⟨i, hlt, heq⟩ := List.getElem_of_mem hp
      have hmin : i < min keys1.length keys2.length := by
        rwa [List.length_zip] at hlt
      have hi1 : i < keys1.length := by omega
      have := hpt ⟨i, hi1⟩
      rw [← heq, List.getElem_zip]
      exact this
  · intro v
    cases v <;> rfl
  · intro v
    cases v <;> rfl
  · intro n q
    simp [valueEq]
  · intro a b
    simp [valueEq]
  · intro a b
    simp [valueEq]

/-- Witness for C4 at the spec's example rows: the two id=2 rows match on
key "id". -/
theorem C4_match_semantics_witness :
    rowsMatch ["id"] ["id"]
      [("id", Value.vint 2), ("name", Value.vstr "b")]
      [("id", Value.vint 2), ("val", Value.vstr "x")] = true :=
  ((C4_match_semantics ["id"] ["id"]
      [("id", Value.vint 2), ("name", Value.vstr "b")]
      [("id", Value.vint 2), ("val", Value.vstr "x")] rfl).1).mpr
    (by decide)

theorem mem_ids_filter {l : List (String × Table)} {a id : String}
    (ha : a ∈ l.map Prod.fst) (hne : a ≠ id) :
    a ∈ (l.filter (fun p => p.1 ≠ id)).map Prod.fst := by
  simp only [List.mem_map] at ha ⊢
  obtain ⟨p, hp, hfst⟩ := ha
  exact ⟨p, List.mem_filter.mpr ⟨hp, by simp [hfst, hne]⟩, hfst⟩

theorem activeValid_add (s : Store) (hs : s.activeValid = true)
    (name src : String) (cols : List String) (rows : List Row) :
    ((s.add_table name src cols rows).1).activeValid = true := by
  cases ha : s.active_id with
  | none => simp [Store.add_table, Store.activeValid, Store.ids, ha]
  | some a =>
    unfold Store.activeValid Store.ids at hs ⊢
    rw [ha] at hs
    simp only [decide_eq_true_eq] at hs
    simp [Store.add_table, ha, hs]

theorem activeValid_remove (s : Store) (hs : s.activeValid = true)
    (id : String) : ((s.remove_table id).1).activeValid = true := by
  unfold Store.remove_table
  split
  · by_cases hact : s.active_id = some id
    · simp [Store.activeValid, hact]
    · cases ha : s.active_id with
      | none => simp [Store.activeValid, ha, hact]
      | some a =>
        unfold Store.activeValid Store.ids at hs ⊢
        rw [ha] at hs
        simp only [decide_eq_true_eq] at hs
        rw [ha] at hact
        have hne : a ≠ id := by
          intro hcontra
          exact hact (by rw [hcontra])
        simp only [ha, if_neg hact, decide_eq_true_eq]
        exact mem_ids_filter hs hne
  · exact hs

theorem activeValid_setActive (s : Store) (hs : s.activeValid = true)
    (id : String) : ((s.set_active_table id).1).activeValid = true := by
  unfold Store.set_active_table
  split
  next h =>
    show decide (id ∈ s.ids) = true
    exact decide_eq_true h
  · exact hs

theorem activeValid_append (tables ps : List (String × Table))
    (act : Option String) (n m : Nat)
    (hs : (Store.mk tables act n).activeValid = true) :
    (Store.mk (tables ++ ps) act m).activeValid = true := by
  cases act with
  | none => rfl
  | some a =>
    unfold Store.activeValid Store.ids at hs ⊢
    simp only [decide_eq_true_eq] at hs ⊢
    simp [hs]

theorem activeValid_join (s : Store) (hs : s.activeValid = true)
    (id1 id2 : String) (keys1 keys2 : List String) (jt nm : String) :
    ((s.join_tables id1 id2 keys1 keys2 jt nm).1).activeValid = true := by
  unfold Store.join_tables
  split
  · split
    · exact hs
    · exact activeValid_append s.tables _ s.active_id s.next_id _ hs
  · exact hs

theorem activeValid_apply (s : Store) (op : StoreOp)
    (hs : s.activeValid = true) : (s.apply op).activeValid = true := by
  cases op with
  | add n src c r => exact activeValid_add s hs n src c r
  | remove id => exact activeValid_remove s hs id
  | setActive id => exact activeValid_setActive s hs id
  | join id1 id2 k1 k2 jt nm => exact activeValid_join s hs id1 id2 k1 k2 jt nm
  | reset => rfl

theorem activeValid_run (s : Store) (ops : List StoreOp)
    (hs : s.activeValid = true) : (Store.run s ops).activeValid = true := by
  induction ops generalizing s with
  | nil => exact hs
  | cons op ops ih => exact ih _ (activeValid_apply s op hs)

/-- C2: after any sequence of add, remove, set-active, join and reset
operations from a store satisfying the active-pointer invariant, the
invariant still holds; removing the currently active table unsets
`active_id`; setting a non-existent active id fails without mutating
state. -/
theorem C2_active_pointer_validity (s : Store) (ops : List StoreOp)
    (hs : s.activeValid = true) :
    ((Store.run s ops).activeValid = true)
  ∧ (∀ id, s.active_id = some id → (s.remove_table id).1.active_id = none)
  ∧ (∀ id, id ∉ s.ids → s.set_active_table id = (s, false)) := by
  refine ⟨activeValid_run s ops hs, ?_, ?_⟩
  · intro id hact
    have hid : id ∈ s.ids := by
      unfold Store.activeValid at hs
      rw [hact] at hs
      simpa using hs
    unfold Store.remove_table
    rw [if_pos hid]
    show (if s.active_id = some id then none else s.active_id) = none
    rw [if_pos hact]
  · intro id hid
    unfold Store.set_active_table
    rw [if_neg hid]

/-- Witness for C2 on a concrete operation sequence from the empty store. -/
theorem C2_active_pointer_validity_witness :
    (Store.run Store.empty
      [StoreOp.add "T1" "f1" ["id"] [], StoreOp.add "T2" "f2" ["id"] [],
       StoreOp.setActive "t1", StoreOp.remove "t1",
       StoreOp.join "t0" "t1" ["id"] ["id"] "inner" "J"]).activeValid
      = true :=
  (C2_active_pointer_validity Store.empty
    [StoreOp.add "T1" "f1" ["id"] [], StoreOp.add "T2" "f2" ["id"] [],
     StoreOp.setActive "t1", StoreOp.remove "t1",
     StoreOp.join "t0" "t1" ["id"] ["id"] "inner" "J"] rfl).1

theorem joinValidate_isBad (t1 t2 : Table) (keys1 keys2 : List String)
    (jt : String)
    (hbad : keys1.length ≠ keys2.length ∨ keys1 = [] ∨
      (∃ k ∈ keys1, k ∉ t1.columns) ∨ (∃ k ∈ keys2, k ∉ t2.columns) ∨
      parseJoinType jt = none) :
    joinValidate t1 t2 keys1 keys2 jt
      = Except.error StoreError.validationError := by
  unfold joinValidate
  split
  · rfl
  next hlen =>
    split
    · rfl
    next hemp =>
      split
      · rfl
      next hk1 =>
        split
        · rfl
        next hk2 =>
          cases hp : parseJoinType jt with
          | none => rfl
          | some j =>
            exfalso
            simp at hk1 hk2
            rcases hbad with h | h | h | h | h
            · exact hlen h
            · rw [h] at hemp
              exact hemp rfl
            · obtain ⟨k, hk, hnot⟩ := h
              exact hnot (hk1 k hk)
            · obtain ⟨k, hk, hnot⟩ := h
              exact hnot (hk2 k hk)
            · rw [hp] at h
              exact Option.noConfusion h

/-- C3: with both referenced tables present, `join_tables` fails with
`ValidationError` whenever `keys1` and `keys2` differ in length, are empty,
reference an absent column, or the join type is unrecognized — and on every
such failure the store (its tables and active pointer) is exactly as
before. -/
theorem C3_join_validation (s : Store) (id1 id2 : String) (t1 t2 : Table)
    (keys1 keys2 : List String) (jt nm : String)
    (h1 : s.get_table id1 = some t1) (h2 : s.get_table id2 = some t2)
    (hbad : keys1.length ≠ keys2.length ∨ keys1 = [] ∨
      (∃ k ∈ keys1, k ∉ t1.columns) ∨ (∃ k ∈ keys2, k ∉ t2.columns) ∨
      parseJoinType jt = none) :
    s.join_tables id1 id2 keys1 keys2 jt nm
      = (s, Except.error StoreError.validationError) := by
  unfold Store.join_tables
  rw [h1, h2]
  simp only [joinEngine, joinValidate_isBad t1 t2 keys1 keys2 jt hbad]

/-- Witness for C3: joining the sample tables with mismatched key lists
fails with a validation error and leaves the store untouched. -/
theorem C3_join_validation_witness :
    sampleStore.join_tables "t0" "t1" ["id", "name"] ["id"] "inner" "J"
      = (sampleStore, Except.error StoreError.validationError) :=
  C3_join_validation sampleStore "t0" "t1" sampleT1 sampleT2
    ["id", "name"] ["id"] "inner" "J" rfl rfl (Or.inl (by decide))

/-- C5: `add_table` marks the new table active exactly when no active table
is set (an existing `active_id` is preserved), while a successful
`join_tables` never changes `active_id`. -/
theorem C5_active_frame (s : Store) (name src : String)
    (cols : List String) (rows : List Row) (id1 id2 : String)
    (keys1 keys2 : List String) (jt nm : String) :
    (s.active_id = none →
      (s.add_table name src cols rows).1.active_id = some s.freshId)
  ∧ (∀ a, s.active_id = some a →
      (s.add_table name src cols rows).1.active_id = some a)
  ∧ (∀ s2 newId,
      s.join_tables id1 id2 keys1 keys2 jt nm = (s2, Except.ok newId) →
      s2.active_id = s.active_id) := by
  refine ⟨?_, ?_, ?_⟩
  · intro h
    simp [Store.add_table, h]
  · intro a h
    simp [Store.add_table, h]
  · intro s2 newId h
    unfold Store.join_tables at h
    split at h
    · split at h
      · simp at h
      · simp only [Prod.mk.injEq] at h
        rw [← h.1]
    · simp at h

/-- Witness for C5: adding a table to the empty store makes it active. -/
theorem C5_active_frame_witness :
    (Store.empty.add_table "T1" "f1" ["id"] []).1.active_id
      = some Store.empty.freshId :=
  (C5_active_frame Store.empty "T1" "f1" ["id"] [] "" "" [] [] "" "").1 rfl

/-- C6: removing an id not present in the store returns false and leaves
the whole store — tables and active pointer — unchanged. -/
theorem C6_remove_table_absent (s : Store) (id : String)
    (h : id ∉ s.ids) : s.remove_table id = (s, false) := by
  unfold Store.remove_table
  rw [if_neg h]

/-- Witness for C6 on the sample store and an unknown id. -/
theorem C6_remove_table_absent_witness :
    sampleStore.remove_table "zzz" = (sampleStore, false) :=
  C6_remove_table_absent sampleStore "zzz" (by decide)

theorem joinValidate_ok_parse (t1 t2 : Table) (keys1 keys2 : List String)
    (jt : String) (j : JoinType)
    (h : joinValidate t1 t2 keys1 keys2 jt = Except.ok j) :
    parseJoinType jt = some j := by
  unfold joinValidate at h
  split at h
  · exact absurd h (by simp)
  · split at h
    · exact absurd h (by simp)
    · split at h
      · exact absurd h (by simp)
      · split at h
        · exact absurd h (by simp)
        · cases hp : parseJoinType jt with
          | none =>
            rw [hp] at h
            exact absurd h (by simp)
          | some x =>
            rw [hp] at h
            simp only [Except.ok.injEq] at h
            rw [h]

/-- C7: every successful join's columns are the table1 columns in order,
then the table2 columns in order with colliding names suffixed "_2"; its
rows are the matched pairs in table1-outer / table2-inner visit order,
then the unmatched left rows for left/outer joins, then the unmatched
right rows for right/outer joins. -/
theorem C7_join_output_shape (t1 t2 : Table) (keys1 keys2 : List String)
    (jt : String) (j : JoinType) (cols : List String) (rows : List Row)
    (hj : parseJoinType jt = some j)
    (hok : joinEngine t1 t2 keys1 keys2 jt = Except.ok (cols, rows)) :
    (cols = t1.columns ++ t2.columns.map (renameCol t1.columns))
  ∧ (cols.length = t1.columns.length + t2.columns.length)
  ∧ (∀ i, i < t1.columns.length → cols[i]? = t1.columns[i]?)
  ∧ (∀ i, cols[t1.columns.length + i]?
      = (t2.columns[i]?).map (renameCol t1.columns))
  ∧ (rows = matchedRows keys1 keys2 t1 t2
      ++ (if j = JoinType.left ∨ j = JoinType.outer
          then unmatchedLeftRows keys1 keys2 t1 t2 else [])
      ++ (if j = JoinType.right ∨ j = JoinType.outer
          then unmatchedRightRows keys1 keys2 t1 t2 else [])) := by
  unfold joinEngine at hok
  cases hv : joinValidate t1 t2 keys1 keys2 jt with
  | error e =>
    rw [hv] at hok
    exact absurd hok (by simp)
  | ok j2 =>
    rw [hv] at hok
    have hj2 : j2 = j := by
      have := joinValidate_ok_parse t1 t2 keys1 keys2 jt j2 hv
      rw [hj] at this
      exact (Option.some.injEq _ _ ▸ this.symm)
    simp only [Except.ok.injEq, Prod.mk.injEq] at hok
    obtain ⟨hc, hr⟩ := hok
    subst hj2
    refine ⟨hc.symm, ?_, ?_, ?_, ?_⟩
    · rw [← hc]
      simp [joinedColumns]
    · intro i hi
      rw [← hc]
      unfold joinedColumns
      rw [List.getElem?_append, if_pos hi]
    · intro i
      rw [← hc]
      unfold joinedColumns
      have hidx : t1.columns.length + i - t1.columns.length = i := by omega
      rw [List.getElem?_append, if_neg (by omega), hidx, List.getElem?_map]
    · rw [← hr]
      rfl

/-- Witness for C7 at the sample tables with an outer join. -/
theorem C7_join_output_shape_witness :
    joinedColumns sampleT1.columns sampleT2.columns
      = sampleT1.columns ++ sampleT2.columns.map (renameCol sampleT1.columns) :=
  (C7_join_output_shape sampleT1 sampleT2 ["id"] ["id"] "outer"
    JoinType.outer (joinedColumns sampleT1.columns sampleT2.columns)
    (joinRows JoinType.outer ["id"] ["id"] sampleT1 sampleT2) rfl rfl).1

/-- C8: `preview` returns exactly the first `max_rows` rows in table order
(all rows when the table is shorter), the configured default bound is 5,
and on an empty table the sample is empty. -/
theorem C8_preview_bounds (t : Table) (n : Nat) :
    ((get_preview t n).length = min n t.rows.length)
  ∧ (∀ i, i < n → (get_preview t n)[i]? = t.rows[i]?)
  ∧ (t.rows.length ≤ n → get_preview t n = t.rows)
  ∧ (t.rows = [] → get_preview t n = [])
  ∧ (excelConfigDefault.max_preview_rows = 5) := by
  refine ⟨?_, ?_, ?_, ?_, rfl⟩
  · simp [get_preview]
  · intro i hi
    simp [get_preview, List.getElem?_take, hi]
  · intro h
    simp [get_preview, List.take_of_length_le h]
  · intro h
    simp [get_preview, h]

/-- Witness for C8 on the sample table with the default bound. -/
theorem C8_preview_bounds_witness :
    (get_preview sampleT1 excelConfigDefault.max_preview_rows).length
      = min excelConfigDefault.max_preview_rows sampleT1.rows.length :=
  (C8_preview_bounds sampleT1 excelConfigDefault.max_preview_rows).1

/-- C9: an upload request whose filename has a lower-cased extension other
than .xlsx/.xls/.xlsm is rejected with HTTP 400 before anything reaches
`add_table`, leaving the store unchanged; a request with no filename
(or an empty one, which Python's truthiness test also rejects) gets the
same 400. -/
theorem C9_upload_reject (s : Store) (filename : Option String)
    (cols : List String) (rows : List Row)
    (hbad : filename = none ∨
      (∃ f, filename = some f ∧
        (f = "" ∨ lowerStr (pySuffix (pyPathName f)) ∉ allowedSuffixes))) :
    upload_excel s filename cols rows = (s, 400) := by
  rcases hbad with h | ⟨f, hf, hb⟩
  · rw [h]
    rfl
  · rw [hf]
    show (if f = "" then (s, 400)
      else if lowerStr (pySuffix (pyPathName f)) ∉ allowedSuffixes
        then (s, 400)
      else ((s.add_table f f cols rows).1, 200)) = (s, 400)
    rcases hb with hb | hb
    · rw [if_pos hb]
    · by_cases hemp : f = ""
      · rw [if_pos hemp]
      · rw [if_neg hemp, if_pos hb]

/-- Witness for C9: uploading a .csv file is rejected with 400 and the
sample store is untouched. -/
theorem C9_upload_reject_witness :
    upload_excel sampleStore (some "data.csv") [] [] = (sampleStore, 400) :=
  C9_upload_reject sampleStore (some "data.csv") [] []
    (Or.inr ⟨"data.csv", rfl, Or.inr (by decide)⟩)

theorem expandEnvChars_some (env : String → Option String) (c : Char)
    (l run tail : List Char)
    (h : parsePlaceholder (c :: l) = some (run, tail)) :
    expandEnvChars env (c :: l)
      = ((env (String.mk run)).getD "").data ++ expandEnvChars env tail := by
  rw [expandEnvChars]
  split
  next r t heq =>
    rw [h] at heq
    simp only [Option.some.injEq, Prod.mk.injEq] at heq
    rw [heq.1, heq.2]
  next heq =>
    rw [h] at heq
    exact absurd heq (by simp)

theorem expandEnvChars_none (env : String → Option String) (c : Char)
    (l : List Char) (h : parsePlaceholder (c :: l) = none) :
    expandEnvChars env (c :: l) = c :: expandEnvChars env l := by
  rw [expandEnvChars]
  split
  next r t heq =>
    rw [h] at heq
    exact absurd heq (by simp)
  next => rfl

theorem parsePlaceholder_not_dollar {c : Char} (hc : c ≠ '$')
    (l : List Char) : parsePlaceholder (c :: l) = none := by
  cases l with
  | nil => rfl
  | cons b rest => simp [parsePlaceholder, hc]

theorem expandEnvChars_append_nodollar (env : String → Option String)
    (cs l : List Char) (h : ∀ c ∈ cs, c ≠ '$') :
    expandEnvChars env (cs ++ l) = cs ++ expandEnvChars env l := by
  induction cs with
  | nil => rfl
  | cons c cs ih =>
    have hc : c ≠ '$' := h c (by simp)
    rw [List.cons_append,
      expandEnvChars_none env c _ (parsePlaceholder_not_dollar hc _),
      ih (fun x hx => h x (by simp [hx]))]
    rfl

theorem takeWhile_word_append (var rest : List Char)
    (hw : ∀ c ∈ var, isWordChar c = true) :
    (var ++ '}' :: rest).takeWhile isWordChar = var := by
  induction var with
  | nil =>
    rw [List.nil_append, List.takeWhile_cons]
    have h1 : isWordChar '}' = false := by decide
    rw [h1]
    rfl
  | cons c cs ih =>
    have hc : isWordChar c = true := hw c (by simp)
    rw [List.cons_append, List.takeWhile_cons, hc, if_pos rfl,
      ih (fun x hx => hw x (by simp [hx]))]

theorem dropWhile_word_append (var rest : List Char)
    (hw : ∀ c ∈ var, isWordChar c = true) :
    (var ++ '}' :: rest).dropWhile isWordChar = '}' :: rest := by
  induction var with
  | nil =>
    rw [List.nil_append, List.dropWhile_cons_of_neg (by decide)]
  | cons c cs ih =>
    have hc : isWordChar c = true := hw c (by simp)
    rw [List.cons_append, List.dropWhile_cons_of_pos hc,
      ih (fun x hx => hw x (by simp [hx]))]

theorem parsePlaceholder_marker (var rest : List Char) (hne : var ≠ [])
    (hw : ∀ c ∈ var, isWordChar c = true) :
    parsePlaceholder ('$' :: '{' :: (var ++ '}' :: rest))
      = some (var, rest) := by
  simp only [parsePlaceholder, dropWhile_word_append var rest hw,
    takeWhile_word_append var rest hw]
  simp [hne]

/-- C10: `_expand_env_vars` replaces each `${VAR}` occurrence (VAR a
nonempty run of word characters) by the environment's value for VAR,
substituting the empty string when VAR is unset rather than keeping the
placeholder or failing; `_process_config_dict` applies this to string
values and recurses into nested dicts, leaving list and non-string values
untouched. -/
theorem C10_env_expansion (env : String → Option String)
    (var pre post : String)
    (hvar : var.data ≠ [] ∧ ∀ c ∈ var.data, isWordChar c = true)
    (hpre : ∀ c ∈ pre.data, c ≠ '$') :
    (expand_env_vars env (pre ++ "$\x7b" ++ var ++ "\x7d" ++ post)
      = pre ++ ((env var).getD "") ++ expand_env_vars env post)
  ∧ (env var = none → expand_env_vars env ("$\x7b" ++ var ++ "\x7d") = "")
  ∧ (∀ k s rest, process_config_dict env ((k, YamlValue.ystr s) :: rest)
      = (k, YamlValue.ystr (expand_env_vars env s))
          :: process_config_dict env rest)
  ∧ (∀ k d rest, process_config_dict env ((k, YamlValue.ydict d) :: rest)
      = (k, YamlValue.ydict (process_config_dict env d))
          :: process_config_dict env rest)
  ∧ (∀ k l rest, process_config_dict env ((k, YamlValue.ylist l) :: rest)
      = (k, YamlValue.ylist l) :: process_config_dict env rest)
  ∧ (∀ k n rest, process_config_dict env ((k, YamlValue.yint n) :: rest)
      = (k, YamlValue.yint n) :: process_config_dict env rest) := by
  have hmarker := parsePlaceholder_marker var.data post.data hvar.1 hvar.2
  refine ⟨?_, ?_, fun k s rest => by simp [process_config_dict],
    fun k d rest => by simp [process_config_dict],
    fun k l rest => by simp [process_config_dict],
    fun k n rest => by simp [process_config_dict]⟩
  · have hdata : (pre ++ "$\x7b" ++ var ++ "\x7d" ++ post).data
        = pre.data ++ ('$' :: '{' :: (var.data ++ '}' :: post.data)) := by
      show pre.data ++ ['$', '{'] ++ var.data ++ ['}'] ++ post.data = _
      simp
    unfold expand_env_vars
    rw [hdata, expandEnvChars_append_nodollar env pre.data _ hpre,
      expandEnvChars_some env '$' _ var.data post.data hmarker]
    show String.mk (pre.data
        ++ (((env var).getD "").data ++ expandEnvChars env post.data))
      = String.mk ((pre.data ++ ((env var).getD "").data)
        ++ expandEnvChars env post.data)
    rw [List.append_assoc]
  · intro hnone
    have hmarker2 := parsePlaceholder_marker var.data [] hvar.1 hvar.2
    have hdata : ("$\x7b" ++ var ++ "\x7d").data
        = '$' :: '{' :: (var.data ++ '}' :: []) := by
      show ['$', '{'] ++ var.data ++ ['}'] = _
      simp
    unfold expand_env_vars
    rw [hdata, expandEnvChars_some env '$' _ var.data [] hmarker2]
    have h0 : expandEnvChars env [] = [] := by rw [expandEnvChars]
    have hv : String.mk var.data = var := rfl
    rw [h0, hv, hnone]
    rfl

/-- A concrete environment for the C10 witness. -/
def demoEnv : String → Option String :=
  fun v => if v = "API_KEY" then some "secret" else none

/-- Witness for C10 at a concrete configuration string. -/
theorem C10_env_expansion_witness :
    expand_env_vars demoEnv ("key: " ++ "$\x7b" ++ "API_KEY" ++ "\x7d" ++ "!")
      = "key: " ++ ((demoEnv "API_KEY").getD "")
          ++ expand_env_vars demoEnv "!" :=
  (C10_env_expansion demoEnv "API_KEY" "key: " "!"
    (by constructor
        · decide
        · decide)
    (by decide)).1

end ExcelMind
